import Mathlib

/-!
Verification of the autotuning cache/scheduler of `cubecl-runtime`
(`src/crates/cubecl-runtime/src/tune/local.rs`).

The embedding is a shallow, sequential model of `LocalTuner`:

* `TuneCacheResult` mirrors the four cache states.
* `Tuner` models the per-identity cache owned by `Tuner` (the
  fingerprint-to-state view exposed by `Tuner::fastest`, the persisted
  record consulted by `Tuner::validate_checksum`, and the `autotuning`
  in-flight set that `local.rs` reads and inserts into directly).
* `TunableSet` models the ordered variant list (variants are
  `In → Option Out`, `none` standing for the `Err` of
  `execute(input) -> Result<Output, Fail>`), the key generator and the
  checksum value.
* `LocalTuner.execute` is a line-by-line state-passing translation of
  `LocalTuner::execute`; Rust panics (`expect`/`panic!`) become
  `Except.error` carrying a `PanicMsg` naming the panic site, and the
  model additionally returns a trace of observable events (diagnostic
  `checks` runs, `execute_autotune` starts with a snapshot of the tuner
  passed to it, and the final variant dispatch).
* The `Tuner` methods that live outside `local.rs`
  (`Tuner::new`, `Tuner::execute_autotune`, `Tuner::handle_results`) are
  kept abstract as an environment `TuneEnv` of arbitrary tuner
  transformers, so every theorem quantifies over their behaviour.
* `LocalTuner.init` and `LocalTuner.clear` are modelled over the same
  registry state, with `Arc` identity represented by an allocation tag.
-/

/-- The four cache states of `TuneCacheResult`. -/
inductive TuneCacheResult where
  | hit (fastestIndex : Nat)
  | miss
  | pending
  | unchecked
deriving DecidableEq, Repr

/-- The panic sites of `LocalTuner::execute`:
* `idxOutOfBounds`: indexing panic of `operations.fastest(i)` on an
  out-of-range variant index;
* `opFailed`: `expect("Should run when selected by autotune.")`;
* `notInit`: `expect("Should be initialized")`;
* `uncheckedEarly`: `panic!("Should have checked the cache already.")`;
* `missAfterAutotune`: `panic!("Should have at least started autotuning")`;
* `uncheckedLate`: `panic!("Should have checked the cache.")`. -/
inductive PanicMsg where
  | idxOutOfBounds
  | opFailed
  | notInit
  | uncheckedEarly
  | missAfterAutotune
  | uncheckedLate
deriving DecidableEq, Repr

/-- Modelled from the spec: the `Tuner` struct is not under `src/`; per
§3/§4.5 it owns, per identity, the fingerprint-to-state cache (read by
`Tuner::fastest`), a persisted record of (variant index, checksum) per
fingerprint (consulted by `Tuner::validate_checksum`), and the in-flight
`autotuning` set that `local.rs` accesses directly. -/
structure Tuner (K : Type) where
  cache : K → TuneCacheResult
  persisted : K → Option (Nat × Nat)
  autotuning : List K

/-- `Tuner::fastest` returns the current cache-result state (read-only). -/
def Tuner.fastest (t : Tuner K) (k : K) : TuneCacheResult :=
  t.cache k

/-- Pointwise update of a fingerprint-to-state view. -/
def setCache [DecidableEq K] (f : K → TuneCacheResult) (k : K)
    (v : TuneCacheResult) : K → TuneCacheResult :=
  fun q => if q = k then v else f q

/-- Modelled from the spec: `Tuner::validate_checksum` is not under
`src/`; per §4.5 it compares a freshly computed checksum against the one
recorded with any persisted result for that fingerprint; on mismatch it
discards the stale entry (treats as `Miss`); on match it promotes
`Unchecked` to whatever was persisted. -/
def validateChecksum [DecidableEq K] (t : Tuner K) (k : K) (cs : Nat) :
    Tuner K :=
  match t.persisted k with
  | none => { t with cache := setCache t.cache k TuneCacheResult.miss }
  | some (i, recorded) =>
    if recorded = cs then
      { t with cache := setCache t.cache k (TuneCacheResult.hit i) }
    else
      { t with
        cache := setCache t.cache k TuneCacheResult.miss,
        persisted := fun q => if q = k then none else t.persisted q }

/-- The ordered variant list plus key generation and checksum of a
`TunableSet` (`tunables` holds each variant's `execute`; per §4.1 the
checksum is a pure function of the variant list, kept as a value). -/
structure TunableSet (K In Out : Type) where
  tunables : List (In → Option Out)
  generateKey : In → K
  checksum : Nat

/-- `operations.fastest(i).execute(inputs).expect("Should run when selected by autotune.")`:
variant lookup (a Rust indexing panic on an out-of-range index) followed
by the `expect` that unwraps the variant's `Result`. -/
def dispatchVariant (ops : TunableSet K In Out) (i : Nat) (inputs : In) :
    Except PanicMsg Out :=
  match ops.tunables[i]? with
  | none => Except.error PanicMsg.idxOutOfBounds
  | some op =>
    match op inputs with
    | some out => Except.ok out
    | none => Except.error PanicMsg.opFailed

/-- The outputs collected by `LocalTuner::checks`: for `i` in
`0..operations.len()`, run `operations.fastest(i).execute(inputs.clone())`. -/
def checksOutputs (ops : TunableSet K In Out) (inputs : In) :
    List (Option Out) :=
  (List.range ops.tunables.length).map (fun i =>
    match ops.tunables[i]? with
    | some op => op inputs
    | none => none)

/-- Observable events of one `execute` call: a diagnostic `checks` pass
(with the outputs it collected), a call to `Tuner::execute_autotune`
(with the key and a snapshot of the tuner it was invoked on), and the
final dispatch of a variant index. -/
inductive Event (K Out : Type) where
  | checksRun (outs : List (Option Out))
  | autotuneStarted (k : K) (t : Tuner K)
  | dispatched (i : Nat)

/-- Extracts an `autotuneStarted` event, if any. -/
def startOf : Event K Out → Option (K × Tuner K)
  | Event.autotuneStarted k t => some (k, t)
  | _ => none

/-- All `execute_autotune` invocations recorded in a trace. -/
def startEvents (tr : List (Event K Out)) : List (K × Tuner K) :=
  tr.filterMap startOf

/-- The mutable registry of a `LocalTuner`: the `state` map
(`Option<HashMap<ID, Tuner>>`) and the `sets` registry
(`Option<HashMap<TypeId, Arc<dyn Any>>>`, with `TypeId` and `Arc`
identity both modelled as tags). -/
structure LocalTunerSt (ID K : Type) where
  state : Option (List (ID × Tuner K))
  sets : Option (List (Nat × Nat))

/-- Association-list lookup (the `HashMap::get` of the model). -/
def alistLookup [DecidableEq A] : List (A × B) → A → Option B
  | [], _ => none
  | (a, b) :: rest, q => if a = q then some b else alistLookup rest q

/-- Association-list insert-or-replace (the `HashMap::insert` /
`entry(..).or_insert_with(..)` mutation of the model). -/
def alistUpdate [DecidableEq A] : List (A × B) → A → B → List (A × B)
  | [], q, v => [(q, v)]
  | (a, b) :: rest, q, v =>
    if a = q then (q, v) :: rest else (a, b) :: alistUpdate rest q v

/-- Modelled from the spec: the `Tuner` methods not under `src/` are kept
abstract. `newTuner` is the tuner built by `Tuner::new` on first use of an
identity; `executeAutotune` is the effect of `Tuner::execute_autotune` on
the tuner it is invoked on (it runs candidates / enqueues work through its
own interior state); `handleResults` is the effect of
`Tuner::handle_results` (non-blocking drain of completed measurements). -/
structure TuneEnv (K : Type) where
  newTuner : Tuner K
  executeAutotune : Tuner K → K → Tuner K
  handleResults : Tuner K → Tuner K

/-- Build configuration of `local.rs`: `stdIO` is the `cfg(std_io)` gate
around checksum validation, `autotuneChecks` the `autotune-checks`
feature gating `LocalTuner::checks`. -/
structure Flags where
  stdIO : Bool
  autotuneChecks : Bool

/-- The result of one modelled `execute` call: the returned value (or the
panic), the final registry state, and the event trace. -/
structure ExecOut (ID K In Out : Type) where
  result : Except PanicMsg Out
  finalState : LocalTunerSt ID K
  trace : List (Event K Out)

/-- The trace segment contributed by one `LocalTuner::checks` call site
(present exactly when the `autotune-checks` feature is on). -/
def checksEv (flags : Flags) (ops : TunableSet K In Out) (inputs : In) :
    List (Event K Out) :=
  if flags.autotuneChecks then [Event.checksRun (checksOutputs ops inputs)]
  else []

/-- The initial read-only lookup of `execute` (lines 123-138): `some i`
iff `self.state.read()` holds a map, the map holds a tuner for `id`, and
`tuner.fastest(&key)` is `Hit { fastest_index: i }`. -/
def fastPathLookup [DecidableEq ID] [DecidableEq K]
    (st : LocalTunerSt ID K) (id : ID) (k : K) : Option Nat :=
  match st.state with
  | none => none
  | some map =>
    match alistLookup map id with
    | none => none
    | some tuner =>
      match tuner.fastest k with
      | TuneCacheResult.hit i => some i
      | _ => none

/-- The tuner obtained by `map.entry(id.clone()).or_insert_with(..)`:
the existing tuner for `id`, or the freshly built `Tuner::new` one. -/
def tunerAtEntry [DecidableEq ID] [DecidableEq K] (env : TuneEnv K)
    (st : LocalTunerSt ID K) (id : ID) : Tuner K :=
  match alistLookup (st.state.getD []) id with
  | some t => t
  | none => env.newTuner

/-- The tuner after the `cfg(std_io)` checksum step of `execute` (lines
150-159): when the captured state is `Unchecked`, `validate_checksum` is
run with the freshly computed checksum; otherwise the tuner is left
alone.  (`execute` then re-reads `tuner.fastest(&key)` from this tuner;
when no validation happened the re-read equals the first read.) -/
def validatedTuner [DecidableEq ID] [DecidableEq K] (env : TuneEnv K)
    (flags : Flags) (st : LocalTunerSt ID K) (id : ID)
    (ops : TunableSet K In Out) (k : K) : Tuner K :=
  let t0 := tunerAtEntry env st id
  if flags.stdIO = true ∧ t0.fastest k = TuneCacheResult.unchecked then
    validateChecksum t0 k ops.checksum
  else t0

/-- Output of the exclusive bookkeeping phase of `execute` (lines
140-167): the updated `state` map, the captured `fastest` state, and the
`run_autotune` responsibility flag. -/
structure BookkeepingOut (ID K : Type) where
  map : List (ID × Tuner K)
  fastest : TuneCacheResult
  runAutotune : Bool

/-- The exclusive bookkeeping phase of `execute` (lines 140-167):
get-or-insert the tuner for `id`, read `fastest` (validating the
checksum first if it was `Unchecked`, under `cfg(std_io)`), then mark the
key in-flight and take responsibility when the state is `Miss` and the
key is not already in `tuner.autotuning`. -/
def bookkeeping [DecidableEq ID] [DecidableEq K] (env : TuneEnv K)
    (flags : Flags) (st : LocalTunerSt ID K) (id : ID)
    (ops : TunableSet K In Out) (k : K) : BookkeepingOut ID K :=
  let map0 := st.state.getD []
  let t1 := validatedTuner env flags st id ops k
  let f1 := t1.fastest k
  if f1 = TuneCacheResult.miss ∧ k ∉ t1.autotuning then
    { map := alistUpdate map0 id { t1 with autotuning := k :: t1.autotuning },
      fastest := f1, runAutotune := true }
  else
    { map := alistUpdate map0 id t1, fastest := f1, runAutotune := false }

/-- The second `match tuner.fastest(&key)` of `execute` (lines 223-246),
run after `handle_results`: the chosen dispatch index, or the panic of a
protocol defect. -/
def harvestChoice (runAutotune : Bool) (r : TuneCacheResult) :
    Except PanicMsg Nat :=
  match r with
  | TuneCacheResult.hit i => Except.ok i
  | TuneCacheResult.pending => Except.ok 0
  | TuneCacheResult.miss =>
    if runAutotune then Except.error PanicMsg.missAfterAutotune
    else Except.ok 0
  | TuneCacheResult.unchecked => Except.error PanicMsg.uncheckedLate

/-- The final dispatch of `execute` (lines 249-256): the optional
`checks` pass followed by
`operations.fastest(fastest).execute(inputs).expect(..)`. -/
def finishDispatch [DecidableEq ID] [DecidableEq K] (flags : Flags)
    (st : LocalTunerSt ID K) (ops : TunableSet K In Out) (inputs : In)
    (map2 : List (ID × Tuner K)) (startEv : List (Event K Out)) (i : Nat) :
    ExecOut ID K In Out :=
  { result := dispatchVariant ops i inputs,
    finalState := { st with state := some map2 },
    trace := startEv ++ checksEv flags ops inputs ++ [Event.dispatched i] }

/-- The harvest phase of `execute` (lines 212-256): look the tuner up
again (`expect("Should be initialized")`), drain completed results with
`handle_results`, re-query the state, and dispatch (or panic). -/
def harvestFinish [DecidableEq ID] [DecidableEq K] (env : TuneEnv K)
    (flags : Flags) (st : LocalTunerSt ID K) (id : ID)
    (ops : TunableSet K In Out) (inputs : In) (k : K) (runAutotune : Bool)
    (map1 : List (ID × Tuner K)) (startEv : List (Event K Out)) :
    ExecOut ID K In Out :=
  match alistLookup map1 id with
  | none =>
    { result := Except.error PanicMsg.notInit,
      finalState := { st with state := some map1 }, trace := startEv }
  | some t =>
    let t2 := env.handleResults t
    let map2 := alistUpdate map1 id t2
    match harvestChoice runAutotune (t2.fastest k) with
    | Except.error m =>
      { result := Except.error m,
        finalState := { st with state := some map2 }, trace := startEv }
    | Except.ok i => finishDispatch flags st ops inputs map2 startEv i

/-- The map entering the harvest phase: when this call is responsible for
a `Miss`, the tuner for `id` after `execute_autotune` was invoked on it;
otherwise the bookkeeping map unchanged. -/
def postStartMap [DecidableEq ID] [DecidableEq K] (env : TuneEnv K)
    (b : BookkeepingOut ID K) (id : ID) (k : K) : List (ID × Tuner K) :=
  if b.fastest = TuneCacheResult.miss ∧ b.runAutotune = true then
    match alistLookup b.map id with
    | some t => alistUpdate b.map id (env.executeAutotune t k)
    | none => b.map
  else b.map

/-- The slow path of `execute` (lines 169-256): dispatch on the captured
state — early return on `Hit`, panic on `Unchecked`, start
`execute_autotune` on a responsible `Miss` (after the
`expect("Should be initialized")` lookup), then fall through to the
harvest phase. -/
def slowPath [DecidableEq ID] [DecidableEq K] (env : TuneEnv K)
    (flags : Flags) (st : LocalTunerSt ID K) (id : ID)
    (ops : TunableSet K In Out) (inputs : In) (k : K)
    (b : BookkeepingOut ID K) : ExecOut ID K In Out :=
  match b.fastest with
  | TuneCacheResult.hit i =>
    { result := dispatchVariant ops i inputs,
      finalState := { st with state := some b.map },
      trace := checksEv flags ops inputs ++ [Event.dispatched i] }
  | TuneCacheResult.unchecked =>
    { result := Except.error PanicMsg.uncheckedEarly,
      finalState := { st with state := some b.map }, trace := [] }
  | TuneCacheResult.miss =>
    if b.runAutotune then
      match alistLookup b.map id with
      | none =>
        { result := Except.error PanicMsg.notInit,
          finalState := { st with state := some b.map }, trace := [] }
      | some t =>
        harvestFinish env flags st id ops inputs k b.runAutotune
          (alistUpdate b.map id (env.executeAutotune t k))
          [Event.autotuneStarted k t]
    else
      harvestFinish env flags st id ops inputs k b.runAutotune b.map []
  | TuneCacheResult.pending =>
    harvestFinish env flags st id ops inputs k b.runAutotune b.map []

/-- `LocalTuner::execute` (lines 108-256): generate the key, try the
read-only fast path, otherwise run the bookkeeping phase and the slow
path. -/
def LocalTuner.execute [DecidableEq ID] [DecidableEq K] (env : TuneEnv K)
    (flags : Flags) (st : LocalTunerSt ID K) (id : ID)
    (ops : TunableSet K In Out) (inputs : In) : ExecOut ID K In Out :=
  match fastPathLookup st id (ops.generateKey inputs) with
  | some i =>
    { result := dispatchVariant ops i inputs,
      finalState := st,
      trace := checksEv flags ops inputs ++ [Event.dispatched i] }
  | none =>
    slowPath env flags st id ops inputs (ops.generateKey inputs)
      (bookkeeping env flags st id ops (ops.generateKey inputs))

/-- `LocalTuner::clear` (lines 87-90): `*state = None`; `sets` is not
touched. -/
def LocalTuner.clear (st : LocalTunerSt ID K) : LocalTunerSt ID K :=
  { st with state := none }

/-- Result of one modelled `LocalTuner::init` call: the `Arc` identity
returned, the new registry state, and how many times the `init_set`
constructor was invoked during the call. -/
structure InitOut (ID K : Type) where
  arc : Nat
  st : LocalTunerSt ID K
  ctorRuns : Nat

/-- The write branch of `init` (lines 72-83): run `init_set`, wrap it in
a fresh `Arc` (identity `fresh`), and insert it under `typeId`, creating
the map if absent. -/
def initWrite (st : LocalTunerSt ID K) (typeId : Nat) (fresh : Nat) :
    InitOut ID K :=
  let sets1 :=
    match st.sets with
    | some sets => alistUpdate sets typeId fresh
    | none => [(typeId, fresh)]
  { arc := fresh, st := { st with sets := some sets1 }, ctorRuns := 1 }

/-- `LocalTuner::init` (lines 54-84): under the read lock, return a clone
of the registered `Arc` for this constructor `TypeId` if present;
otherwise construct and register one under the write lock. -/
def LocalTuner.init (st : LocalTunerSt ID K) (typeId : Nat)
    (fresh : Nat) : InitOut ID K :=
  match st.sets with
  | some sets =>
    match alistLookup sets typeId with
    | some arc => { arc := arc, st := st, ctorRuns := 0 }
    | none => initWrite st typeId fresh
  | none => initWrite st typeId fresh

/-- Tests whether a modelled call outcome is the given panic. -/
def isPanic (m : PanicMsg) : Except PanicMsg Out → Bool
  | Except.error s => decide (s = m)
  | Except.ok _ => false

/-- A concrete environment: `handle_results` and `execute_autotune` leave
the tuner unchanged. -/
def envW : TuneEnv Nat :=
  { newTuner :=
      { cache := fun _ => TuneCacheResult.miss, persisted := fun _ => none,
        autotuning := [] },
    executeAutotune := fun t _ => t,
    handleResults := fun t => t }

/-- A concrete environment whose `handle_results` corrupts the cache back
to `Unchecked` (exercises the harvest-phase defect panic). -/
def envCorruptW : TuneEnv Nat :=
  { newTuner :=
      { cache := fun _ => TuneCacheResult.miss, persisted := fun _ => none,
        autotuning := [] },
    executeAutotune := fun t _ => t,
    handleResults := fun t =>
      { t with cache := fun _ => TuneCacheResult.unchecked } }

/-- A concrete tunable set with two total variants and constant key 5. -/
def opsW : TunableSet Nat Nat Nat :=
  { tunables := [fun x => some (x + 1), fun x => some (x * 2)],
    generateKey := fun _ => 5, checksum := 7 }

/-- A concrete tunable set whose only variant always fails. -/
def opsFailW : TunableSet Nat Nat Nat :=
  { tunables := [fun _ => none], generateKey := fun _ => 5, checksum := 7 }

/-- A tuner with a cached winner (index 1) for key 5. -/
def tunerHitW : Tuner Nat :=
  { cache := fun k => if k = 5 then TuneCacheResult.hit 1
      else TuneCacheResult.miss,
    persisted := fun _ => none, autotuning := [] }

/-- A tuner with a cached winner (index 0) for every key. -/
def tunerHit0W : Tuner Nat :=
  { cache := fun _ => TuneCacheResult.hit 0, persisted := fun _ => none,
    autotuning := [] }

/-- A tuner with no trusted result and key 5 already in-flight. -/
def tunerPendW : Tuner Nat :=
  { cache := fun _ => TuneCacheResult.miss, persisted := fun _ => none,
    autotuning := [5] }

/-- A tuner whose persisted entry for key 5 has not been validated. -/
def tunerUncheckedW : Tuner Nat :=
  { cache := fun _ => TuneCacheResult.unchecked,
    persisted := fun k => if k = 5 then some (1, 7) else none,
    autotuning := [] }

/-- Registry state holding `tunerHitW` under identity 0. -/
def stHitW : LocalTunerSt Nat Nat :=
  { state := some [(0, tunerHitW)], sets := none }

/-- Registry state holding `tunerHit0W` under identity 0. -/
def stHit0W : LocalTunerSt Nat Nat :=
  { state := some [(0, tunerHit0W)], sets := none }

/-- Registry state holding `tunerPendW` under identity 0. -/
def stPendW : LocalTunerSt Nat Nat :=
  { state := some [(0, tunerPendW)], sets := none }

/-- Registry state holding `tunerUncheckedW` under identity 0. -/
def stUncheckedW : LocalTunerSt Nat Nat :=
  { state := some [(0, tunerUncheckedW)], sets := none }

/-- Build with `std_io` on and `autotune-checks` off. -/
def flagsW : Flags := { stdIO := true, autotuneChecks := false }

/-- Build with `std_io` off and `autotune-checks` off. -/
def flagsNoIoW : Flags := { stdIO := false, autotuneChecks := false }

/-- Build with `std_io` on and `autotune-checks` on. -/
def flagsChecksW : Flags := { stdIO := true, autotuneChecks := true }

/-- Looking up the key just inserted or replaced succeeds. -/
theorem alistLookup_update_self [DecidableEq A] (m : List (A × B)) (a : A)
    (b : B) : alistLookup (alistUpdate m a b) a = some b := by
  induction m with
  | nil => simp [alistUpdate, alistLookup]
  | cons hd tl ih =>
    obtain ⟨x, y⟩ := hd
    by_cases hx : x = a
    · subst hx
      simp [alistUpdate, alistLookup]
    · simp [alistUpdate, alistLookup, hx, ih]

/-- Checksum validation never touches the in-flight set. -/
theorem validateChecksum_autotuning [DecidableEq K] (t : Tuner K) (k : K)
    (cs : Nat) : (validateChecksum t k cs).autotuning = t.autotuning := by
  unfold validateChecksum
  cases t.persisted k with
  | none => rfl
  | some p =>
    obtain ⟨i, recorded⟩ := p
    by_cases h : recorded = cs <;> simp [h]

/-- After checksum validation the fingerprint's state is `Miss` or a
`Hit`, never `Unchecked`. -/
theorem validateChecksum_fastest_self [DecidableEq K] (t : Tuner K)
    (k : K) (cs : Nat) :
    (validateChecksum t k cs).fastest k = TuneCacheResult.miss ∨
      ∃ i, (validateChecksum t k cs).fastest k = TuneCacheResult.hit i := by
  unfold validateChecksum Tuner.fastest
  cases t.persisted k with
  | none =>
    left
    simp [setCache]
  | some p =>
    obtain ⟨i, recorded⟩ := p
    by_cases h : recorded = cs
    · right
      exact ⟨i, by simp [h, setCache]⟩
    · left
      simp [h, setCache]

/-- The `cfg(std_io)` step does not touch the in-flight set. -/
theorem validatedTuner_autotuning [DecidableEq ID] [DecidableEq K]
    (env : TuneEnv K) (flags : Flags) (st : LocalTunerSt ID K) (id : ID)
    (ops : TunableSet K In Out) (k : K) :
    (validatedTuner env flags st id ops k).autotuning =
      (tunerAtEntry env st id).autotuning := by
  by_cases h : flags.stdIO = true ∧
      (tunerAtEntry env st id).fastest k = TuneCacheResult.unchecked
  · simp [validatedTuner, h, validateChecksum_autotuning]
  · simp [validatedTuner, h]

/-- The bookkeeping phase always leaves a tuner registered for `id`. -/
theorem bookkeeping_lookup [DecidableEq ID] [DecidableEq K]
    (env : TuneEnv K) (flags : Flags) (st : LocalTunerSt ID K) (id : ID)
    (ops : TunableSet K In Out) (k : K) :
    (alistLookup (bookkeeping env flags st id ops k).map id).isSome = true := by
  by_cases hc : (validatedTuner env flags st id ops k).fastest k =
      TuneCacheResult.miss ∧ k ∉ (validatedTuner env flags st id ops k).autotuning
  · simp [bookkeeping, hc, alistLookup_update_self]
  · simp [bookkeeping, hc, alistLookup_update_self]

/-- When the bookkeeping phase takes responsibility, the captured state
is `Miss` and the registered tuner has the key in its in-flight set. -/
theorem bookkeeping_run [DecidableEq ID] [DecidableEq K]
    (env : TuneEnv K) (flags : Flags) (st : LocalTunerSt ID K) (id : ID)
    (ops : TunableSet K In Out) (k : K)
    (h : (bookkeeping env flags st id ops k).runAutotune = true) :
    (bookkeeping env flags st id ops k).fastest = TuneCacheResult.miss ∧
      ∃ t, alistLookup (bookkeeping env flags st id ops k).map id = some t ∧
        k ∈ t.autotuning := by
  by_cases hc : (validatedTuner env flags st id ops k).fastest k =
      TuneCacheResult.miss ∧ k ∉ (validatedTuner env flags st id ops k).autotuning
  · refine ⟨by simp [bookkeeping, hc], ?_⟩
    refine ⟨{ validatedTuner env flags st id ops k with
      autotuning := k :: (validatedTuner env flags st id ops k).autotuning },
      ?_, List.mem_cons_self _ _⟩
    simp [bookkeeping, hc, alistLookup_update_self]
  · simp [bookkeeping, hc] at h

/-- If the key is already in-flight for the existing tuner, bookkeeping
does not take responsibility. -/
theorem bookkeeping_not_inflight [DecidableEq ID] [DecidableEq K]
    (env : TuneEnv K) (flags : Flags) (st : LocalTunerSt ID K) (id : ID)
    (ops : TunableSet K In Out) (k : K) (m : List (ID × Tuner K))
    (t0 : Tuner K) (hst : st.state = some m)
    (hl : alistLookup m id = some t0) (hk : k ∈ t0.autotuning) :
    (bookkeeping env flags st id ops k).runAutotune = false := by
  have hentry : tunerAtEntry env st id = t0 := by
    simp [tunerAtEntry, hst, hl]
  have hmem : k ∈ (validatedTuner env flags st id ops k).autotuning := by
    rw [validatedTuner_autotuning, hentry]
    exact hk
  have hc : ¬ ((validatedTuner env flags st id ops k).fastest k =
      TuneCacheResult.miss ∧
      k ∉ (validatedTuner env flags st id ops k).autotuning) := by
    intro h
    exact h.2 hmem
  simp [bookkeeping, hc]

/-- A diagnostic `checks` pass records no `execute_autotune` start. -/
theorem startEvents_checksEv (flags : Flags) (ops : TunableSet K In Out)
    (inputs : In) : startEvents (checksEv flags ops inputs) = [] := by
  by_cases h : flags.autotuneChecks <;>
    simp [checksEv, h, startEvents, startOf]

/-- The harvest phase records no `execute_autotune` start beyond the ones
already in `startEv`. -/
theorem startEvents_harvestFinish [DecidableEq ID] [DecidableEq K]
    (env : TuneEnv K) (flags : Flags) (st : LocalTunerSt ID K) (id : ID)
    (ops : TunableSet K In Out) (inputs : In) (k : K) (r : Bool)
    (map1 : List (ID × Tuner K)) (startEv : List (Event K Out)) :
    startEvents
        (harvestFinish env flags st id ops inputs k r map1 startEv).trace =
      startEvents startEv := by
  unfold harvestFinish
  cases alistLookup map1 id with
  | none => rfl
  | some t =>
    simp only []
    cases harvestChoice r ((env.handleResults t).fastest k) with
    | error m => rfl
    | ok i =>
      show startEvents
          (startEv ++ checksEv flags ops inputs ++ [Event.dispatched i]) =
        startEvents startEv
      rw [startEvents, List.filterMap_append, List.filterMap_append]
      rw [show List.filterMap startOf (checksEv flags ops inputs) = []
        from startEvents_checksEv flags ops inputs]
      rw [show List.filterMap startOf
        ([Event.dispatched i] : List (Event K Out)) = [] from rfl]
      rw [List.append_nil, List.append_nil]
      rfl

/-- Every `execute_autotune` start recorded by the slow path happens on a
responsible `Miss`, and its tuner snapshot is the one registered for
`id` in the bookkeeping map. -/
theorem startEvents_slowPath [DecidableEq ID] [DecidableEq K]
    (env : TuneEnv K) (flags : Flags) (st : LocalTunerSt ID K) (id : ID)
    (ops : TunableSet K In Out) (inputs : In) (k : K)
    (b : BookkeepingOut ID K) (p : K × Tuner K)
    (hp : p ∈ startEvents (slowPath env flags st id ops inputs k b).trace) :
    b.fastest = TuneCacheResult.miss ∧ b.runAutotune = true ∧
      p.1 = k ∧ alistLookup b.map id = some p.2 := by
  cases hfa : b.fastest with
  | hit i =>
    rw [slowPath, hfa] at hp
    rw [show startEvents (checksEv flags ops inputs ++
          [Event.dispatched i]) = [] by
        rw [startEvents, List.filterMap_append]
        rw [show List.filterMap startOf (checksEv flags ops inputs) = []
          from startEvents_checksEv flags ops inputs]
        rfl] at hp
    exact absurd hp (List.not_mem_nil p)
  | unchecked =>
    rw [slowPath, hfa] at hp
    simp [startEvents, startOf] at hp
  | pending =>
    rw [slowPath, hfa] at hp
    rw [startEvents_harvestFinish] at hp
    simp [startEvents, startOf] at hp
  | miss =>
    rw [slowPath, hfa] at hp
    by_cases hrun : b.runAutotune
    · rw [if_pos hrun] at hp
      cases hl : alistLookup b.map id with
      | none =>
        rw [hl] at hp
        simp [startEvents, startOf] at hp
      | some t =>
        rw [hl] at hp
        rw [startEvents_harvestFinish] at hp
        rw [show startEvents [Event.autotuneStarted k t] = [(k, t)]
          from rfl] at hp
        rw [List.mem_singleton] at hp
        subst hp
        exact ⟨rfl, hrun, rfl, rfl⟩
    · rw [if_neg hrun] at hp
      rw [startEvents_harvestFinish] at hp
      simp [startEvents, startOf] at hp

/-- `postStartMap` keeps the tuner for `id` registered. -/
theorem postStartMap_lookup_isSome [DecidableEq ID] [DecidableEq K]
    (env : TuneEnv K) (b : BookkeepingOut ID K) (id : ID) (k : K)
    (h : (alistLookup b.map id).isSome = true) :
    (alistLookup (postStartMap env b id k) id).isSome = true := by
  unfold postStartMap
  by_cases hc : b.fastest = TuneCacheResult.miss ∧ b.runAutotune = true
  · rw [if_pos hc]
    cases hl : alistLookup b.map id with
    | none => exact h
    | some t => simp [alistLookup_update_self]
  · rw [if_neg hc]
    exact h

/-- A successful `dispatchVariant` result comes from a real variant run
on the input. -/
theorem dispatchVariant_ok (ops : TunableSet K In Out) (i : Nat)
    (inputs : In) (out : Out)
    (h : dispatchVariant ops i inputs = Except.ok out) :
    ∃ op, ops.tunables[i]? = some op ∧ op inputs = some out := by
  unfold dispatchVariant at h
  split at h
  · simp at h
  · rename_i op hl
    split at h
    · rename_i o hop
      injection h with ho
      subst ho
      exact ⟨op, hl, hop⟩
    · simp at h

/-- The harvest phase either dispatches some variant or panics. -/
theorem harvestFinish_result_cases [DecidableEq ID] [DecidableEq K]
    (env : TuneEnv K) (flags : Flags) (st : LocalTunerSt ID K) (id : ID)
    (ops : TunableSet K In Out) (inputs : In) (k : K) (r : Bool)
    (map1 : List (ID × Tuner K)) (startEv : List (Event K Out)) :
    (∃ j, (harvestFinish env flags st id ops inputs k r map1 startEv).result =
        dispatchVariant ops j inputs) ∨
      ∃ m, (harvestFinish env flags st id ops inputs k r map1 startEv).result =
        Except.error m := by
  unfold harvestFinish
  cases alistLookup map1 id with
  | none => exact Or.inr ⟨_, rfl⟩
  | some t =>
    simp only []
    cases harvestChoice r ((env.handleResults t).fastest k) with
    | error m => exact Or.inr ⟨m, rfl⟩
    | ok j => exact Or.inl ⟨j, rfl⟩

/-- Every `execute` result is either a variant dispatch or a panic. -/
theorem execute_result_cases [DecidableEq ID] [DecidableEq K]
    (env : TuneEnv K) (flags : Flags) (st : LocalTunerSt ID K) (id : ID)
    (ops : TunableSet K In Out) (inputs : In) :
    (∃ j, (LocalTuner.execute env flags st id ops inputs).result =
        dispatchVariant ops j inputs) ∨
      ∃ m, (LocalTuner.execute env flags st id ops inputs).result =
        Except.error m := by
  unfold LocalTuner.execute
  cases fastPathLookup st id (ops.generateKey inputs) with
  | some i => exact Or.inl ⟨i, rfl⟩
  | none =>
    simp only []
    generalize bookkeeping env flags st id ops (ops.generateKey inputs) = b
    cases hfa : b.fastest with
    | hit i => rw [slowPath, hfa]; exact Or.inl ⟨i, rfl⟩
    | unchecked => rw [slowPath, hfa]; exact Or.inr ⟨_, rfl⟩
    | pending => rw [slowPath, hfa]; exact harvestFinish_result_cases ..
    | miss =>
      rw [slowPath, hfa]
      by_cases hrun : b.runAutotune
      · rw [if_pos hrun]
        cases alistLookup b.map id with
        | none => exact Or.inr ⟨_, rfl⟩
        | some t => exact harvestFinish_result_cases ..
      · rw [if_neg hrun]
        exact harvestFinish_result_cases ..

/-- The diagnostic pass runs exactly the variants `0..len-1`, in order,
each on the (cloned) input. -/
theorem checksOutputs_eq_map (ops : TunableSet K In Out) (inputs : In) :
    checksOutputs ops inputs = ops.tunables.map (fun op => op inputs) := by
  unfold checksOutputs
  generalize ops.tunables = l
  induction l with
  | nil => rfl
  | cons hd tl ih =>
    rw [List.length_cons, List.range_succ_eq_map, List.map_cons, List.map_map,
      List.map_cons]
    congr 1
    · simp
    · rw [← ih]
      apply List.map_congr_left
      intro i hi
      simp [List.getElem?_cons_succ]

/-- When the read-only fast path hits, `execute` is the fast-path record. -/
theorem execute_eq_fast [DecidableEq ID] [DecidableEq K] (env : TuneEnv K)
    (flags : Flags) (st : LocalTunerSt ID K) (id : ID)
    (ops : TunableSet K In Out) (inputs : In) (i : Nat)
    (h : fastPathLookup st id (ops.generateKey inputs) = some i) :
    LocalTuner.execute env flags st id ops inputs =
      { result := dispatchVariant ops i inputs, finalState := st,
        trace := checksEv flags ops inputs ++ [Event.dispatched i] } := by
  rw [LocalTuner.execute, h]

/-- When the read-only fast path misses, `execute` is the slow path on
the bookkeeping output. -/
theorem execute_eq_slowPath [DecidableEq ID] [DecidableEq K]
    (env : TuneEnv K) (flags : Flags) (st : LocalTunerSt ID K) (id : ID)
    (ops : TunableSet K In Out) (inputs : In)
    (h : fastPathLookup st id (ops.generateKey inputs) = none) :
    LocalTuner.execute env flags st id ops inputs =
      slowPath env flags st id ops inputs (ops.generateKey inputs)
        (bookkeeping env flags st id ops (ops.generateKey inputs)) := by
  rw [LocalTuner.execute, h]

/-- C1: when the initial read-only lookup of the identity's tuner yields
`Hit(i)` for the input's fingerprint, `execute` returns the result of
invoking variant `i` on the input (via the dispatch `expect`), and the
registry state — both the `state` map and the `sets` map — is returned
unchanged. -/
theorem c1_fast_path_hit_no_mutation [DecidableEq ID] [DecidableEq K]
    (env : TuneEnv K) (flags : Flags) (st : LocalTunerSt ID K) (id : ID)
    (ops : TunableSet K In Out) (inputs : In) (map : List (ID × Tuner K))
    (tuner : Tuner K) (i : Nat)
    (hmap : st.state = some map) (hid : alistLookup map id = some tuner)
    (hhit : tuner.fastest (ops.generateKey inputs) = TuneCacheResult.hit i) :
    (LocalTuner.execute env flags st id ops inputs).result =
        dispatchVariant ops i inputs ∧
      (LocalTuner.execute env flags st id ops inputs).finalState = st := by
  have hf : fastPathLookup st id (ops.generateKey inputs) = some i := by
    simp [fastPathLookup, hmap, hid, hhit]
  rw [execute_eq_fast env flags st id ops inputs i hf]
  exact ⟨rfl, rfl⟩

/-- Witness for C1: a cached winner at index 1 for key 5; `execute`
dispatches variant 1 and leaves the registry untouched. -/
theorem c1_fast_path_hit_no_mutation_witness :
    stHitW.state = some [(0, tunerHitW)] ∧
      tunerHitW.fastest (opsW.generateKey 3) = TuneCacheResult.hit 1 ∧
      (LocalTuner.execute envW flagsW stHitW 0 opsW 3).result =
        dispatchVariant opsW 1 3 ∧
      (LocalTuner.execute envW flagsW stHitW 0 opsW 3).finalState = stHitW :=
  ⟨rfl, rfl,
    c1_fast_path_hit_no_mutation envW flagsW stHitW 0 opsW 3
      [(0, tunerHitW)] tunerHitW 1 rfl rfl rfl⟩

/-- C4: a second `init` call with an already-registered constructor
identity returns the `Arc` registered by the first call, leaves the
registry unchanged, and does not run the constructor again; the first
call runs the constructor exactly when the identity was unregistered. -/
theorem c4_init_idempotent (st : LocalTunerSt ID K) (tid f1 f2 : Nat) :
    (LocalTuner.init (LocalTuner.init st tid f1).st tid f2).arc =
        (LocalTuner.init st tid f1).arc ∧
      (LocalTuner.init (LocalTuner.init st tid f1).st tid f2).st =
        (LocalTuner.init st tid f1).st ∧
      (LocalTuner.init (LocalTuner.init st tid f1).st tid f2).ctorRuns = 0 ∧
      (LocalTuner.init st tid f1).ctorRuns =
        (if (alistLookup (st.sets.getD []) tid).isSome then 0 else 1) := by
  cases hs : st.sets with
  | none =>
    simp [LocalTuner.init, initWrite, hs, alistLookup]
  | some sets =>
    cases hl : alistLookup sets tid with
    | some arc => simp [LocalTuner.init, hs, hl]
    | none =>
      simp [LocalTuner.init, initWrite, hs, hl, alistLookup_update_self]

/-- C8: `clear` resets the identity-to-Tuner map to empty while leaving
the `sets` registry unchanged, so a later `init` behaves exactly as it
would have before the `clear` (same `Arc`, same constructor runs). -/
theorem c8_clear_frame (st : LocalTunerSt ID K) (tid f : Nat) :
    (LocalTuner.clear st).sets = st.sets ∧
      (LocalTuner.clear st).state = none ∧
      (LocalTuner.init (LocalTuner.clear st) tid f).arc =
        (LocalTuner.init st tid f).arc ∧
      (LocalTuner.init (LocalTuner.clear st) tid f).ctorRuns =
        (LocalTuner.init st tid f).ctorRuns := by
  refine ⟨rfl, rfl, ?_, ?_⟩ <;>
  · cases hs : st.sets with
    | none => simp [LocalTuner.init, initWrite, LocalTuner.clear, hs]
    | some sets =>
      cases hl : alistLookup sets tid <;>
        simp [LocalTuner.init, initWrite, LocalTuner.clear, hs, hl]

/-- Slow-path reduction: captured `Pending` falls through to harvest. -/
theorem slowPath_eq_harvest_pending [DecidableEq ID] [DecidableEq K]
    (env : TuneEnv K) (flags : Flags) (st : LocalTunerSt ID K) (id : ID)
    (ops : TunableSet K In Out) (inputs : In) (k : K)
    (b : BookkeepingOut ID K) (hp : b.fastest = TuneCacheResult.pending) :
    slowPath env flags st id ops inputs k b =
      harvestFinish env flags st id ops inputs k b.runAutotune b.map [] := by
  rw [slowPath, hp]

/-- Slow-path reduction: non-responsible `Miss` falls through to harvest
without starting benchmarking. -/
theorem slowPath_eq_harvest_noRun [DecidableEq ID] [DecidableEq K]
    (env : TuneEnv K) (flags : Flags) (st : LocalTunerSt ID K) (id : ID)
    (ops : TunableSet K In Out) (inputs : In) (k : K)
    (b : BookkeepingOut ID K) (hm : b.fastest = TuneCacheResult.miss)
    (hr : b.runAutotune = false) :
    slowPath env flags st id ops inputs k b =
      harvestFinish env flags st id ops inputs k b.runAutotune b.map [] := by
  rw [slowPath, hm, hr]
  rfl

/-- Slow-path reduction: responsible `Miss` starts `execute_autotune` on
the registered tuner, then harvests. -/
theorem slowPath_eq_harvest_run [DecidableEq ID] [DecidableEq K]
    (env : TuneEnv K) (flags : Flags) (st : LocalTunerSt ID K) (id : ID)
    (ops : TunableSet K In Out) (inputs : In) (k : K)
    (b : BookkeepingOut ID K) (t' : Tuner K)
    (hm : b.fastest = TuneCacheResult.miss) (hr : b.runAutotune = true)
    (hl : alistLookup b.map id = some t') :
    slowPath env flags st id ops inputs k b =
      harvestFinish env flags st id ops inputs k b.runAutotune
        (alistUpdate b.map id (env.executeAutotune t' k))
        [Event.autotuneStarted k t'] := by
  rw [slowPath, hm, hr, hl]
  rfl

/-- No autotune start happens on a captured `Pending`. -/
theorem postStartMap_eq_pending [DecidableEq ID] [DecidableEq K]
    (env : TuneEnv K) (b : BookkeepingOut ID K) (id : ID) (k : K)
    (hp : b.fastest = TuneCacheResult.pending) :
    postStartMap env b id k = b.map := by
  have hcond : ¬ (b.fastest = TuneCacheResult.miss ∧ b.runAutotune = true) := by
    intro hc
    rw [hp] at hc
    exact TuneCacheResult.noConfusion hc.1
  rw [postStartMap, if_neg hcond]

/-- No autotune start happens on a non-responsible call. -/
theorem postStartMap_eq_noRun [DecidableEq ID] [DecidableEq K]
    (env : TuneEnv K) (b : BookkeepingOut ID K) (id : ID) (k : K)
    (hr : b.runAutotune = false) :
    postStartMap env b id k = b.map := by
  have hcond : ¬ (b.fastest = TuneCacheResult.miss ∧ b.runAutotune = true) := by
    intro hc
    rw [hr] at hc
    exact Bool.false_ne_true hc.2
  rw [postStartMap, if_neg hcond]

/-- On a responsible `Miss`, the harvest map carries the tuner on which
`execute_autotune` was invoked. -/
theorem postStartMap_eq_run [DecidableEq ID] [DecidableEq K]
    (env : TuneEnv K) (b : BookkeepingOut ID K) (id : ID) (k : K)
    (t' : Tuner K) (hm : b.fastest = TuneCacheResult.miss)
    (hr : b.runAutotune = true) (hl : alistLookup b.map id = some t') :
    postStartMap env b id k = alistUpdate b.map id (env.executeAutotune t' k) := by
  rw [postStartMap, if_pos ⟨hm, hr⟩, hl]

/-- Harvest reduction: when the tuner is found and the post-harvest
choice is an index, the result is that variant's dispatch. -/
theorem harvestFinish_ok_result [DecidableEq ID] [DecidableEq K]
    (env : TuneEnv K) (flags : Flags) (st : LocalTunerSt ID K) (id : ID)
    (ops : TunableSet K In Out) (inputs : In) (k : K) (r : Bool)
    (map1 : List (ID × Tuner K)) (ev : List (Event K Out)) (t : Tuner K)
    (j : Nat) (hl : alistLookup map1 id = some t)
    (hc : harvestChoice r ((env.handleResults t).fastest k) = Except.ok j) :
    (harvestFinish env flags st id ops inputs k r map1 ev).result =
      dispatchVariant ops j inputs := by
  unfold harvestFinish
  cases hleq : alistLookup map1 id with
  | none =>
    rw [hleq] at hl
    exact Option.noConfusion hl
  | some t' =>
    rw [hleq] at hl
    injection hl with hteq
    subst hteq
    simp only []
    cases hceq : harvestChoice r ((env.handleResults t').fastest k) with
    | error m =>
      rw [hceq] at hc
      exact Except.noConfusion hc
    | ok j' =>
      rw [hceq] at hc
      injection hc with hj
      subst hj
      rfl

/-- Harvest reduction: when the post-harvest choice is a panic, the
result is that panic. -/
theorem harvestFinish_error_result [DecidableEq ID] [DecidableEq K]
    (env : TuneEnv K) (flags : Flags) (st : LocalTunerSt ID K) (id : ID)
    (ops : TunableSet K In Out) (inputs : In) (k : K) (r : Bool)
    (map1 : List (ID × Tuner K)) (ev : List (Event K Out)) (t : Tuner K)
    (m : PanicMsg) (hl : alistLookup map1 id = some t)
    (hc : harvestChoice r ((env.handleResults t).fastest k) = Except.error m) :
    (harvestFinish env flags st id ops inputs k r map1 ev).result =
      Except.error m := by
  unfold harvestFinish
  cases hleq : alistLookup map1 id with
  | none =>
    rw [hleq] at hl
    exact Option.noConfusion hl
  | some t' =>
    rw [hleq] at hl
    injection hl with hteq
    subst hteq
    simp only []
    cases hceq : harvestChoice r ((env.handleResults t').fastest k) with
    | error m' =>
      rw [hceq] at hc
      injection hc with hm
      subst hm
      rfl
    | ok j' =>
      rw [hceq] at hc
      exact Except.noConfusion hc

/-- C2: a call that reaches the final harvest phase and finds the
fingerprint `Pending` after `handle_results`, or `Miss` while this call
was not responsible for starting benchmarking, dispatches variant index
0 (the default fallback) on the input and returns its result. -/
theorem c2_default_fallback [DecidableEq ID] [DecidableEq K]
    (env : TuneEnv K) (flags : Flags) (st : LocalTunerSt ID K) (id : ID)
    (ops : TunableSet K In Out) (inputs : In) (k : K) (t : Tuner K)
    (hk : k = ops.generateKey inputs)
    (hfast : fastPathLookup st id k = none)
    (hmp : (bookkeeping env flags st id ops k).fastest =
        TuneCacheResult.pending ∨
      (bookkeeping env flags st id ops k).fastest = TuneCacheResult.miss)
    (ht : alistLookup
      (postStartMap env (bookkeeping env flags st id ops k) id k) id = some t)
    (hstate : (env.handleResults t).fastest k = TuneCacheResult.pending ∨
      ((env.handleResults t).fastest k = TuneCacheResult.miss ∧
        (bookkeeping env flags st id ops k).runAutotune = false)) :
    (LocalTuner.execute env flags st id ops inputs).result =
      dispatchVariant ops 0 inputs := by
  subst hk
  rw [execute_eq_slowPath env flags st id ops inputs hfast]
  rcases hmp with hp | hm
  · rw [slowPath_eq_harvest_pending env flags st id ops inputs _ _ hp]
    rw [postStartMap_eq_pending env _ id _ hp] at ht
    rcases hstate with hs | ⟨hs, hr⟩
    · exact harvestFinish_ok_result env flags st id ops inputs _ _ _ _ _ _
        ht (by rw [hs]; rfl)
    · exact harvestFinish_ok_result env flags st id ops inputs _ _ _ _ _ _
        ht (by rw [hs, hr]; rfl)
  · cases hrun : (bookkeeping env flags st id ops
        (ops.generateKey inputs)).runAutotune with
    | false =>
      rw [slowPath_eq_harvest_noRun env flags st id ops inputs _ _ hm hrun]
      rw [postStartMap_eq_noRun env _ id _ hrun] at ht
      rcases hstate with hs | ⟨hs, _⟩
      · exact harvestFinish_ok_result env flags st id ops inputs _ _ _ _ _ _
          ht (by rw [hs]; rfl)
      · exact harvestFinish_ok_result env flags st id ops inputs _ _ _ _ _ _
          ht (by rw [hs, hrun]; rfl)
    | true =>
      obtain ⟨t'', hlt''⟩ := Option.isSome_iff_exists.mp
        (bookkeeping_lookup env flags st id ops (ops.generateKey inputs))
      rw [slowPath_eq_harvest_run env flags st id ops inputs _ _ t'' hm hrun
        hlt'']
      rw [postStartMap_eq_run env _ id _ t'' hm hrun hlt''] at ht
      rcases hstate with hs | ⟨hs, hr⟩
      · exact harvestFinish_ok_result env flags st id ops inputs _ _ _ _ _ _
          ht (by rw [hs]; rfl)
      · rw [hrun] at hr
        exact absurd hr (by simp)

/-- Witness for C2: key 5 is already in-flight for another call, the
state stays `Miss` after harvesting, so `execute` falls back to
variant 0. -/
theorem c2_default_fallback_witness :
    (bookkeeping envW flagsW stPendW 0 opsW 5).runAutotune = false ∧
      (LocalTuner.execute envW flagsW stPendW 0 opsW 3).result =
        dispatchVariant opsW 0 3 :=
  ⟨rfl,
    c2_default_fallback envW flagsW stPendW 0 opsW 3 5 tunerPendW rfl rfl
      (Or.inr rfl) rfl (Or.inr ⟨rfl, rfl⟩)⟩

/-- A fast-path or hit trace (checks then dispatch) records no
`execute_autotune` start. -/
theorem startEvents_fastTrace (flags : Flags) (ops : TunableSet K In Out)
    (inputs : In) (i : Nat) :
    startEvents
        (checksEv flags ops inputs ++ [Event.dispatched i]) = [] := by
  rw [startEvents, List.filterMap_append]
  rw [show List.filterMap startOf (checksEv flags ops inputs) = []
    from startEvents_checksEv flags ops inputs]
  rfl

/-- C3: `execute` starts benchmarking only when the captured state was
`Miss` and this call took responsibility (which requires the fingerprint
not to have been in-flight), and the tuner on which `execute_autotune`
is invoked already has the fingerprint in its in-flight set; a second
call that finds the fingerprint in-flight starts nothing. -/
theorem c3_single_benchmark_start [DecidableEq ID] [DecidableEq K]
    (env : TuneEnv K) (flags : Flags) (st : LocalTunerSt ID K) (id : ID)
    (ops : TunableSet K In Out) (inputs : In) (k : K)
    (hk : k = ops.generateKey inputs) :
    (∀ p ∈ startEvents (LocalTuner.execute env flags st id ops inputs).trace,
        (bookkeeping env flags st id ops k).fastest = TuneCacheResult.miss ∧
          (bookkeeping env flags st id ops k).runAutotune = true ∧
          p.1 = k ∧ p.1 ∈ p.2.autotuning) ∧
      (∀ m t0, st.state = some m → alistLookup m id = some t0 →
        k ∈ t0.autotuning →
        startEvents (LocalTuner.execute env flags st id ops inputs).trace =
          []) := by
  subst hk
  constructor
  · intro p hp
    cases hf : fastPathLookup st id (ops.generateKey inputs) with
    | some i =>
      rw [execute_eq_fast env flags st id ops inputs i hf] at hp
      have hp2 : p ∈ startEvents
          (checksEv flags ops inputs ++ [Event.dispatched i]) := hp
      rw [startEvents_fastTrace] at hp2
      exact absurd hp2 (List.not_mem_nil p)
    | none =>
      rw [execute_eq_slowPath env flags st id ops inputs hf] at hp
      obtain ⟨hmiss, hrun, hpk, hl⟩ :=
        startEvents_slowPath env flags st id ops inputs _ _ p hp
      refine ⟨hmiss, hrun, hpk, ?_⟩
      obtain ⟨hmiss2, t, hlt, hmem⟩ :=
        bookkeeping_run env flags st id ops _ hrun
      rw [hl] at hlt
      injection hlt with hteq
      rw [hpk, hteq]
      exact hmem
  · intro m t0 hst hl hmem
    cases hf : fastPathLookup st id (ops.generateKey inputs) with
    | some i =>
      rw [execute_eq_fast env flags st id ops inputs i hf]
      exact startEvents_fastTrace flags ops inputs i
    | none =>
      rw [execute_eq_slowPath env flags st id ops inputs hf]
      have hrun :=
        bookkeeping_not_inflight env flags st id ops _ m t0 hst hl hmem
      rw [List.eq_nil_iff_forall_not_mem]
      intro p hp
      obtain ⟨_, hrun', _, _⟩ :=
        startEvents_slowPath env flags st id ops inputs _ _ p hp
      rw [hrun] at hrun'
      exact Bool.false_ne_true hrun'

/-- Witness for C3: key 5 is already in-flight, so the call records no
`execute_autotune` start. -/
theorem c3_single_benchmark_start_witness :
    startEvents (LocalTuner.execute envW flagsW stPendW 0 opsW 3).trace =
      [] :=
  (c3_single_benchmark_start envW flagsW stPendW 0 opsW 3 5 rfl).2
    [(0, tunerPendW)] tunerPendW rfl rfl (by simp [tunerPendW])

/-- C5: under `cfg(std_io)`, when the state read under exclusive access
is `Unchecked`, the set's checksum is validated right there and the
state captured for the dispatch is the re-read one; the captured state
is always `Hit`, `Miss` or `Pending` — never `Unchecked`. -/
theorem c5_unchecked_validated [DecidableEq ID] [DecidableEq K]
    (env : TuneEnv K) (flags : Flags) (st : LocalTunerSt ID K) (id : ID)
    (ops : TunableSet K In Out) (k : K) (hflag : flags.stdIO = true) :
    ((tunerAtEntry env st id).fastest k = TuneCacheResult.unchecked →
      (bookkeeping env flags st id ops k).fastest =
        (validateChecksum (tunerAtEntry env st id) k ops.checksum).fastest
          k) ∧
      ((bookkeeping env flags st id ops k).fastest = TuneCacheResult.miss ∨
        (bookkeeping env flags st id ops k).fastest =
          TuneCacheResult.pending ∨
        ∃ i, (bookkeeping env flags st id ops k).fastest =
          TuneCacheResult.hit i) := by
  have hvt : validatedTuner env flags st id ops k =
      (if flags.stdIO = true ∧ (tunerAtEntry env st id).fastest k =
          TuneCacheResult.unchecked then
        validateChecksum (tunerAtEntry env st id) k ops.checksum
      else tunerAtEntry env st id) := rfl
  have hbf : (bookkeeping env flags st id ops k).fastest =
      (validatedTuner env flags st id ops k).fastest k := by
    by_cases hc : (validatedTuner env flags st id ops k).fastest k =
        TuneCacheResult.miss ∧
        k ∉ (validatedTuner env flags st id ops k).autotuning
    · simp [bookkeeping, hc]
    · simp [bookkeeping, hc]
  constructor
  · intro h0
    rw [hbf, hvt, if_pos ⟨hflag, h0⟩]
  · by_cases h0 : (tunerAtEntry env st id).fastest k =
        TuneCacheResult.unchecked
    · rw [hbf, hvt, if_pos ⟨hflag, h0⟩]
      rcases validateChecksum_fastest_self (tunerAtEntry env st id) k
          ops.checksum with h | ⟨i, h⟩
      · exact Or.inl h
      · exact Or.inr (Or.inr ⟨i, h⟩)
    · rw [hbf, hvt, if_neg (fun hc => h0 hc.2)]
      cases hx : (tunerAtEntry env st id).fastest k with
      | hit i => exact Or.inr (Or.inr ⟨i, rfl⟩)
      | miss => exact Or.inl rfl
      | pending => exact Or.inr (Or.inl rfl)
      | unchecked => exact absurd hx h0

/-- Witness for C5: an unchecked persisted entry for key 5 with a
matching checksum is validated during bookkeeping. -/
theorem c5_unchecked_validated_witness :
    flagsW.stdIO = true ∧
      (tunerAtEntry envW stUncheckedW 0).fastest 5 =
        TuneCacheResult.unchecked ∧
      (bookkeeping envW flagsW stUncheckedW 0 opsW 5).fastest =
        (validateChecksum (tunerAtEntry envW stUncheckedW 0) 5
          opsW.checksum).fastest 5 :=
  ⟨rfl, rfl,
    (c5_unchecked_validated envW flagsW stUncheckedW 0 opsW 5 rfl).1 rfl⟩

/-- C6: protocol defects panic: an `Unchecked` state captured for the
first dispatch branch yields the `"Should have checked the cache already."`
panic, an `Unchecked` state re-read at the harvest dispatch branch yields
the `"Should have checked the cache."` panic, and a state still `Miss`
after harvesting while this call was responsible yields the
`"Should have at least started autotuning"` panic. -/
theorem c6_protocol_defects_panic [DecidableEq ID] [DecidableEq K]
    (env : TuneEnv K) (flags : Flags) (st : LocalTunerSt ID K) (id : ID)
    (ops : TunableSet K In Out) (inputs : In) (k : K)
    (hk : k = ops.generateKey inputs)
    (hfast : fastPathLookup st id k = none) :
    ((bookkeeping env flags st id ops k).fastest =
        TuneCacheResult.unchecked →
      (LocalTuner.execute env flags st id ops inputs).result =
        Except.error PanicMsg.uncheckedEarly) ∧
      (∀ t : Tuner K,
        (bookkeeping env flags st id ops k).runAutotune = true →
        alistLookup (postStartMap env (bookkeeping env flags st id ops k)
          id k) id = some t →
        (env.handleResults t).fastest k = TuneCacheResult.miss →
        (LocalTuner.execute env flags st id ops inputs).result =
          Except.error PanicMsg.missAfterAutotune) ∧
      (∀ t : Tuner K,
        ((bookkeeping env flags st id ops k).fastest =
            TuneCacheResult.pending ∨
          (bookkeeping env flags st id ops k).fastest =
            TuneCacheResult.miss) →
        alistLookup (postStartMap env (bookkeeping env flags st id ops k)
          id k) id = some t →
        (env.handleResults t).fastest k = TuneCacheResult.unchecked →
        (LocalTuner.execute env flags st id ops inputs).result =
          Except.error PanicMsg.uncheckedLate) := by
  subst hk
  refine ⟨?_, ?_, ?_⟩
  · intro hu
    rw [execute_eq_slowPath env flags st id ops inputs hfast]
    rw [slowPath, hu]
  · intro t hrun ht hmiss
    obtain ⟨hm, t', hlt', hmem'⟩ :=
      bookkeeping_run env flags st id ops _ hrun
    rw [execute_eq_slowPath env flags st id ops inputs hfast]
    rw [slowPath_eq_harvest_run env flags st id ops inputs _ _ t' hm hrun
      hlt']
    rw [postStartMap_eq_run env _ id _ t' hm hrun hlt'] at ht
    refine harvestFinish_error_result env flags st id ops inputs _ _ _ _ _ _
      ht ?_
    rw [hmiss, hrun]
    rfl
  · intro t hmp ht hu2
    rw [execute_eq_slowPath env flags st id ops inputs hfast]
    rcases hmp with hp | hm
    · rw [slowPath_eq_harvest_pending env flags st id ops inputs _ _ hp]
      rw [postStartMap_eq_pending env _ id _ hp] at ht
      refine harvestFinish_error_result env flags st id ops inputs _ _ _ _
        _ _ ht ?_
      rw [hu2]
      rfl
    · cases hrun : (bookkeeping env flags st id ops
          (ops.generateKey inputs)).runAutotune with
      | false =>
        rw [slowPath_eq_harvest_noRun env flags st id ops inputs _ _ hm
          hrun]
        rw [postStartMap_eq_noRun env _ id _ hrun] at ht
        refine harvestFinish_error_result env flags st id ops inputs _ _ _
          _ _ _ ht ?_
        rw [hu2]
        rfl
      | true =>
        obtain ⟨t', hlt'⟩ := Option.isSome_iff_exists.mp
          (bookkeeping_lookup env flags st id ops (ops.generateKey inputs))
        rw [slowPath_eq_harvest_run env flags st id ops inputs _ _ t' hm
          hrun hlt']
        rw [postStartMap_eq_run env _ id _ t' hm hrun hlt'] at ht
        refine harvestFinish_error_result env flags st id ops inputs _ _ _
          _ _ _ ht ?_
        rw [hu2]
        rfl

/-- Witness for C6: without `cfg(std_io)` the unchecked state reaches the
first dispatch branch and `execute` panics; and a `handle_results` that
corrupts the cache back to `Unchecked` makes the harvest dispatch branch
panic. -/
theorem c6_protocol_defects_panic_witness :
    (bookkeeping envW flagsNoIoW stUncheckedW 0 opsW 5).fastest =
        TuneCacheResult.unchecked ∧
      (LocalTuner.execute envW flagsNoIoW stUncheckedW 0 opsW 3).result =
        Except.error PanicMsg.uncheckedEarly ∧
      (LocalTuner.execute envCorruptW flagsW stPendW 0 opsW 3).result =
        Except.error PanicMsg.uncheckedLate :=
  ⟨rfl,
    (c6_protocol_defects_panic envW flagsNoIoW stUncheckedW 0 opsW 3 5 rfl
      (by rfl)).1 rfl,
    (c6_protocol_defects_panic envCorruptW flagsW stPendW 0 opsW 3 5 rfl
      (by rfl)).2.2 tunerPendW (Or.inr (by rfl)) (by rfl) rfl⟩

/-- C7 (amended): every successful return of `execute` is the output of
a real variant run on the input — the dispatch `expect` means a `Fail`
of the chosen variant panics instead of returning. -/
theorem c7_result_from_real_variant [DecidableEq ID] [DecidableEq K]
    (env : TuneEnv K) (flags : Flags) (st : LocalTunerSt ID K) (id : ID)
    (ops : TunableSet K In Out) (inputs : In) (out : Out)
    (h : (LocalTuner.execute env flags st id ops inputs).result =
      Except.ok out) :
    ∃ (i : Nat) (op : In → Option Out),
      ops.tunables[i]? = some op ∧ op inputs = some out := by
  rcases execute_result_cases env flags st id ops inputs with ⟨j, hj⟩ | ⟨m, hm⟩
  · rw [hj] at h
    obtain ⟨op, hop, hout⟩ := dispatchVariant_ok ops j inputs out h
    exact ⟨j, op, hop, hout⟩
  · rw [hm] at h
    exact Except.noConfusion h

/-- Witness for C7 (amended): the successful call through the cached
winner returns the output of variant 1 on input 3. -/
theorem c7_result_from_real_variant_witness :
    ∃ (i : Nat) (op : Nat → Option Nat),
      opsW.tunables[i]? = some op ∧ op 3 = some 6 :=
  c7_result_from_real_variant envW flagsW stHitW 0 opsW 3 6 (by rfl)

/-- Counterexample for C7 as stated: when the variant chosen for final
dispatch returns a `Fail`, the caller does not receive any result —
`execute` panics with `"Should run when selected by autotune."`. -/
theorem c7_counterexample :
    (LocalTuner.execute envW flagsW stHit0W 0 opsFailW 3).result =
        Except.error PanicMsg.opFailed ∧
      (LocalTuner.execute envW flagsW stHit0W 0 opsFailW 3).result.isOk =
        false :=
  ⟨by rfl, by rfl⟩

/-- The variant dispatch never raises the `"Should be initialized"`
panic. -/
theorem isPanic_notInit_dispatch (ops : TunableSet K In Out) (i : Nat)
    (inputs : In) :
    isPanic PanicMsg.notInit (dispatchVariant ops i inputs) = false := by
  unfold dispatchVariant
  split
  · rfl
  · split
    · rfl
    · rfl

/-- A panic of the post-harvest choice is one of the two protocol-defect
panics. -/
theorem harvestChoice_error_shape (r : Bool) (x : TuneCacheResult)
    (m : PanicMsg) (h : harvestChoice r x = Except.error m) :
    m = PanicMsg.missAfterAutotune ∨ m = PanicMsg.uncheckedLate := by
  cases x with
  | hit i => exact absurd h (by simp [harvestChoice])
  | pending => exact absurd h (by simp [harvestChoice])
  | unchecked =>
    right
    have h2 : (Except.error PanicMsg.uncheckedLate : Except PanicMsg Nat) =
        Except.error m := h
    injection h2 with h1
    exact h1.symm
  | miss =>
    cases r with
    | false => exact absurd h (by simp [harvestChoice])
    | true =>
      left
      have h2 : (Except.error PanicMsg.missAfterAutotune :
          Except PanicMsg Nat) = Except.error m := h
      injection h2 with h1
      exact h1.symm

/-- The harvest phase never raises the `"Should be initialized"` panic
when the tuner for `id` is registered in its map. -/
theorem isPanic_notInit_harvestFinish [DecidableEq ID] [DecidableEq K]
    (env : TuneEnv K) (flags : Flags) (st : LocalTunerSt ID K) (id : ID)
    (ops : TunableSet K In Out) (inputs : In) (k : K) (r : Bool)
    (map1 : List (ID × Tuner K)) (ev : List (Event K Out))
    (h : (alistLookup map1 id).isSome = true) :
    isPanic PanicMsg.notInit
      (harvestFinish env flags st id ops inputs k r map1 ev).result =
      false := by
  unfold harvestFinish
  cases hl : alistLookup map1 id with
  | none =>
    rw [hl] at h
    exact absurd h (by simp)
  | some t =>
    simp only []
    cases hc : harvestChoice r ((env.handleResults t).fastest k) with
    | error m =>
      rcases harvestChoice_error_shape r _ m hc with hm | hm <;> subst hm <;>
        rfl
    | ok j => exact isPanic_notInit_dispatch ops j inputs

/-- C9: within one `execute` call, once the bookkeeping phase has
registered the tuner for `id`, the two later lookups (before
`execute_autotune` and during the harvest phase) find it, so the
`expect("Should be initialized")` branches are unreachable. -/
theorem c9_expect_lookups_succeed [DecidableEq ID] [DecidableEq K]
    (env : TuneEnv K) (flags : Flags) (st : LocalTunerSt ID K) (id : ID)
    (ops : TunableSet K In Out) (inputs : In) :
    (alistLookup
        (bookkeeping env flags st id ops (ops.generateKey inputs)).map
        id).isSome = true ∧
      (alistLookup
        (postStartMap env
          (bookkeeping env flags st id ops (ops.generateKey inputs)) id
          (ops.generateKey inputs)) id).isSome = true ∧
      isPanic PanicMsg.notInit
        (LocalTuner.execute env flags st id ops inputs).result = false := by
  refine ⟨bookkeeping_lookup env flags st id ops _,
    postStartMap_lookup_isSome env _ id _
      (bookkeeping_lookup env flags st id ops _), ?_⟩
  cases hf : fastPathLookup st id (ops.generateKey inputs) with
  | some i =>
    rw [execute_eq_fast env flags st id ops inputs i hf]
    exact isPanic_notInit_dispatch ops i inputs
  | none =>
    rw [execute_eq_slowPath env flags st id ops inputs hf]
    have hbl := bookkeeping_lookup env flags st id ops (ops.generateKey inputs)
    cases hfa : (bookkeeping env flags st id ops
        (ops.generateKey inputs)).fastest with
    | hit i =>
      rw [slowPath, hfa]
      exact isPanic_notInit_dispatch ops i inputs
    | unchecked =>
      rw [slowPath, hfa]
      rfl
    | pending =>
      rw [slowPath_eq_harvest_pending env flags st id ops inputs _ _ hfa]
      exact isPanic_notInit_harvestFinish env flags st id ops inputs _ _ _ _
        hbl
    | miss =>
      cases hrun : (bookkeeping env flags st id ops
          (ops.generateKey inputs)).runAutotune with
      | false =>
        rw [slowPath_eq_harvest_noRun env flags st id ops inputs _ _ hfa
          hrun]
        exact isPanic_notInit_harvestFinish env flags st id ops inputs _ _ _
          _ hbl
      | true =>
        obtain ⟨t', hlt'⟩ := Option.isSome_iff_exists.mp hbl
        rw [slowPath_eq_harvest_run env flags st id ops inputs _ _ t' hfa
          hrun hlt']
        refine isPanic_notInit_harvestFinish env flags st id ops inputs _ _ _
          _ ?_
        simp [alistLookup_update_self]

/-- Harvest reduction for traces: a successful harvest appends the
diagnostic checks and the dispatch event. -/
theorem harvestFinish_ok_trace [DecidableEq ID] [DecidableEq K]
    (env : TuneEnv K) (flags : Flags) (st : LocalTunerSt ID K) (id : ID)
    (ops : TunableSet K In Out) (inputs : In) (k : K) (r : Bool)
    (map1 : List (ID × Tuner K)) (ev : List (Event K Out)) (t : Tuner K)
    (j : Nat) (hl : alistLookup map1 id = some t)
    (hc : harvestChoice r ((env.handleResults t).fastest k) = Except.ok j) :
    (harvestFinish env flags st id ops inputs k r map1 ev).trace =
      ev ++ checksEv flags ops inputs ++ [Event.dispatched j] := by
  unfold harvestFinish
  cases hleq : alistLookup map1 id with
  | none =>
    rw [hleq] at hl
    exact Option.noConfusion hl
  | some t' =>
    rw [hleq] at hl
    injection hl with hteq
    subst hteq
    simp only []
    cases hceq : harvestChoice r ((env.handleResults t').fastest k) with
    | error m =>
      rw [hceq] at hc
      exact Except.noConfusion hc
    | ok j' =>
      rw [hceq] at hc
      injection hc with hj
      subst hj
      rfl

/-- C10: with the `autotune-checks` feature on, every call that reaches
the final dispatch — a cached `Hit` found at harvest, or the variant-0
fallback on `Pending` or a non-responsible `Miss` — runs the diagnostic
pass over all candidate variants 0..len-1, in order, on the input. -/
theorem c10_checks_on_final_dispatch [DecidableEq ID] [DecidableEq K]
    (env : TuneEnv K) (flags : Flags) (st : LocalTunerSt ID K) (id : ID)
    (ops : TunableSet K In Out) (inputs : In) (k : K) (t : Tuner K)
    (j : Nat) (hk : k = ops.generateKey inputs)
    (hflag : flags.autotuneChecks = true)
    (hfast : fastPathLookup st id k = none)
    (hmp : (bookkeeping env flags st id ops k).fastest =
        TuneCacheResult.pending ∨
      (bookkeeping env flags st id ops k).fastest = TuneCacheResult.miss)
    (ht : alistLookup
      (postStartMap env (bookkeeping env flags st id ops k) id k) id =
      some t)
    (hchoice : harvestChoice (bookkeeping env flags st id ops k).runAutotune
      ((env.handleResults t).fastest k) = Except.ok j) :
    Event.checksRun (checksOutputs ops inputs) ∈
        (LocalTuner.execute env flags st id ops inputs).trace ∧
      checksOutputs ops inputs = ops.tunables.map (fun op => op inputs) := by
  refine ⟨?_, checksOutputs_eq_map ops inputs⟩
  subst hk
  rw [execute_eq_slowPath env flags st id ops inputs hfast]
  rcases hmp with hp | hm
  · rw [slowPath_eq_harvest_pending env flags st id ops inputs _ _ hp]
    rw [postStartMap_eq_pending env _ id _ hp] at ht
    rw [harvestFinish_ok_trace env flags st id ops inputs _ _ _ _ _ _ ht
      hchoice]
    simp [checksEv, hflag]
  · cases hrun : (bookkeeping env flags st id ops
        (ops.generateKey inputs)).runAutotune with
    | false =>
      rw [slowPath_eq_harvest_noRun env flags st id ops inputs _ _ hm hrun]
      rw [postStartMap_eq_noRun env _ id _ hrun] at ht
      rw [harvestFinish_ok_trace env flags st id ops inputs _ _ _ _ _ _ ht
        hchoice]
      simp [checksEv, hflag]
    | true =>
      obtain ⟨t'', hlt''⟩ := Option.isSome_iff_exists.mp
        (bookkeeping_lookup env flags st id ops (ops.generateKey inputs))
      rw [slowPath_eq_harvest_run env flags st id ops inputs _ _ t'' hm hrun
        hlt'']
      rw [postStartMap_eq_run env _ id _ t'' hm hrun hlt''] at ht
      rw [harvestFinish_ok_trace env flags st id ops inputs _ _ _ _ _ _ ht
        hchoice]
      simp [checksEv, hflag]

/-- Witness for C10: with checks on, the fallback dispatch of a
non-responsible `Miss` still runs the diagnostic pass. -/
theorem c10_checks_on_final_dispatch_witness :
    flagsChecksW.autotuneChecks = true ∧
      Event.checksRun (checksOutputs opsW 3) ∈
        (LocalTuner.execute envW flagsChecksW stPendW 0 opsW 3).trace :=
  ⟨rfl,
    (c10_checks_on_final_dispatch envW flagsChecksW stPendW 0 opsW 3 5
      tunerPendW 0 rfl rfl (by rfl) (Or.inr (by rfl)) (by rfl) (by rfl)).1⟩
